import Mathlib

/-!
Shallow embedding of the vocabulary-learning web app (a TypeScript/React
repository) in Lean 4, together with theorems settling the frozen claims.

The embedding covers:
* the data model (`WordDefinition`, `SavedWord`, `ImageLabel` from the types
  module),
* the App component's word-list handlers (`handleSaveWord`,
  `handleUpdateWord`) and its localStorage persistence effects,
* the flashcard navigation (`handleNext` / `handlePrev`),
* the remote AI client (`geminiService.ts`): each service function is
  embedded as a pure function of the remote response(s) it awaits, paired
  with the number of remote API calls the run performs,
* the live practice session's `onmessage` handler: playback scheduling with
  the `nextStartTime` cursor, the pending-source set, and the interruption
  branch.

Times and audio sample values are modelled as rationals (`ℚ`); machine
floats carry no claim-relevant rounding behaviour here.  Browser/remote
effects (the awaited API responses, `ctx.currentTime`, `crypto.randomUUID()`,
`Date.now()`) enter as explicit arguments.
-/

/-- The `WordDefinition` interface from the types module: the structured
definition returned by the remote lookup call. -/
structure WordDefinition where
  word : String
  phonetic : String
  partOfSpeech : String
  definitionEn : String
  definitionCn : String
  exampleSentence : String
  exampleTranslation : String
deriving DecidableEq, Repr

/-- The `SavedWord` interface: `WordDefinition` plus an id, a save
timestamp, and optional generated image/video references.  TypeScript
interface extension flattens the fields, so the embedding does too. -/
structure SavedWord where
  word : String
  phonetic : String
  partOfSpeech : String
  definitionEn : String
  definitionCn : String
  exampleSentence : String
  exampleTranslation : String
  id : String
  addedAt : Int
  imageUrl : Option String
  videoUrl : Option String
deriving DecidableEq, Repr

/-- The `ImageLabel` interface: a labelled object found in an uploaded
image, with its center position as percentages. -/
structure ImageLabel where
  label : String
  phonetic : String
  x : ℚ
  y : ℚ
deriving DecidableEq, Repr

/-- `handleSaveWord` from the App component: build a `SavedWord` from the
looked-up definition by spreading its fields and adding a fresh UUID and the
current time, then prepend it to the list.  `uuid` stands for
`crypto.randomUUID()` and `now` for `Date.now()`. -/
def handleSaveWord (uuid : String) (now : Int) (wordDef : WordDefinition)
    (prev : List SavedWord) : List SavedWord :=
  { word := wordDef.word
    phonetic := wordDef.phonetic
    partOfSpeech := wordDef.partOfSpeech
    definitionEn := wordDef.definitionEn
    definitionCn := wordDef.definitionCn
    exampleSentence := wordDef.exampleSentence
    exampleTranslation := wordDef.exampleTranslation
    id := uuid
    addedAt := now
    imageUrl := none
    videoUrl := none } :: prev

/-- `handleRemoveWord` from the App component: filter the word with the
given id out of the list. -/
def handleRemoveWord (wid : String) (prev : List SavedWord) : List SavedWord :=
  prev.filter (fun w => w.id ≠ wid)

/-- A `Partial<SavedWord>` update object.  `none` is an absent property;
for the two optional fields, `some none` is a property explicitly present
with value `undefined` (object spread overwrites with it). -/
structure SavedWordUpdate where
  word : Option String := none
  phonetic : Option String := none
  partOfSpeech : Option String := none
  definitionEn : Option String := none
  definitionCn : Option String := none
  exampleSentence : Option String := none
  exampleTranslation : Option String := none
  id : Option String := none
  addedAt : Option Int := none
  imageUrl : Option (Option String) := none
  videoUrl : Option (Option String) := none
deriving DecidableEq, Repr

/-- The object spread `\x7b ...w, ...updates \x7d`: every property present on
`updates` overwrites the one on `w`. -/
def mergeWord (w : SavedWord) (u : SavedWordUpdate) : SavedWord :=
  { word := u.word.getD w.word
    phonetic := u.phonetic.getD w.phonetic
    partOfSpeech := u.partOfSpeech.getD w.partOfSpeech
    definitionEn := u.definitionEn.getD w.definitionEn
    definitionCn := u.definitionCn.getD w.definitionCn
    exampleSentence := u.exampleSentence.getD w.exampleSentence
    exampleTranslation := u.exampleTranslation.getD w.exampleTranslation
    id := u.id.getD w.id
    addedAt := u.addedAt.getD w.addedAt
    imageUrl := u.imageUrl.getD w.imageUrl
    videoUrl := u.videoUrl.getD w.videoUrl }

/-- `handleUpdateWord` from the App component: map over the list, merging
the update object into each word whose id matches. -/
def handleUpdateWord (wid : String) (u : SavedWordUpdate)
    (prev : List SavedWord) : List SavedWord :=
  prev.map (fun w => if w.id = wid then mergeWord w u else w)

/-- `handleNext` from `FlashcardReview`: advance the index cyclically,
`(prev + 1) % words.length`. -/
def handleNext (len i : Nat) : Nat :=
  (i + 1) % len

/-- `handlePrev` from `FlashcardReview`: step the index back cyclically,
`(prev - 1 + words.length) % words.length` (on JavaScript numbers the
operand is nonnegative whenever `i ≥ 0` and `len ≥ 1`, so `Nat` subtraction
placed after the addition is exact). -/
def handlePrev (len i : Nat) : Nat :=
  (i + len - 1) % len

/-- A user navigation action on the flashcard deck. -/
inductive NavStep where
  | next : NavStep
  | prev : NavStep
deriving DecidableEq, Repr

/-- Apply one navigation action to the current index. -/
def applyNavStep (len i : Nat) : NavStep → Nat
  | NavStep.next => handleNext len i
  | NavStep.prev => handlePrev len i

/-- Apply a sequence of navigation actions, left to right. -/
def applyNavSteps (len i : Nat) : List NavStep → Nat
  | [] => i
  | st :: rest => applyNavSteps len (applyNavStep len i st) rest

/-! ## Live practice session (`LivePractice`)

The `onmessage` callback mutates three pieces of state: the
`nextStartTimeRef` cursor, the `sourcesRef` set of pending
`AudioBufferSourceNode`s, and (implicitly) which sources have had `stop()`
called on them.  Sources are identified by the order of their creation
(`nextId`); `scheduled` logs every `source.start(t)` call as the pair
`(start time, buffer duration)`. -/

/-- The playback-side state of the live session that `onmessage` reads and
writes. -/
structure PlaybackState where
  nextStartTime : ℚ
  pending : Finset Nat
  stopped : Finset Nat
  nextId : Nat
  scheduled : List (ℚ × ℚ)
deriving DecidableEq

/-- The slice of a `LiveServerMessage` the handler inspects: the optional
inbound audio chunk (as the duration of its decoded buffer) and the
`serverContent.interrupted` flag. -/
structure LiveMsg where
  audioDuration : Option ℚ
  interrupted : Bool
deriving DecidableEq, Repr

/-- The audio branch of `onmessage`: raise the cursor to
`max(nextStartTime, ctx.currentTime)`, start a fresh source at the cursor,
advance the cursor by the decoded buffer's duration, and add the source to
the pending set. -/
def audioStep (ctxTime dur : ℚ) (s : PlaybackState) : PlaybackState :=
  let t := max s.nextStartTime ctxTime
  { nextStartTime := t + dur
    pending := insert s.nextId s.pending
    stopped := s.stopped
    nextId := s.nextId + 1
    scheduled := s.scheduled ++ [(t, dur)] }

/-- The interruption branch of `onmessage`: call `stop()` on every pending
source, clear the set, and reset the cursor to 0. -/
def interruptStep (s : PlaybackState) : PlaybackState :=
  { nextStartTime := 0
    pending := ∅
    stopped := s.stopped ∪ s.pending
    nextId := s.nextId
    scheduled := s.scheduled }

/-- The `onmessage` callback: the audio branch runs first (when the message
carries inline audio data), then the interruption branch (when
`serverContent.interrupted` is set).  `ctxTime` is `ctx.currentTime` at the
moment the cursor is raised. -/
def onmessage (ctxTime : ℚ) (m : LiveMsg) (s : PlaybackState) : PlaybackState :=
  let s1 := match m.audioDuration with
    | some d => audioStep ctxTime d s
    | none => s
  if m.interrupted then interruptStep s1 else s1

/-- The initial playback state of a session whose cursor sits at `t0`
(`nextStartTimeRef` starts at 0; `t0` is kept general). -/
def initPlayback (t0 : ℚ) : PlaybackState :=
  { nextStartTime := t0
    pending := ∅
    stopped := ∅
    nextId := 0
    scheduled := [] }

/-- Deliver a sequence of audio-only messages (no interruption) to the
handler; each chunk is a pair of the `ctx.currentTime` observed on arrival
and the decoded buffer's duration. -/
def runChunks (s : PlaybackState) : List (ℚ × ℚ) → PlaybackState
  | [] => s
  | c :: rest => runChunks (onmessage c.1 ⟨some c.2, false⟩ s) rest

/-- `fastArrival s chunks` holds when every chunk arrives while earlier
audio is still queued: its observed `ctx.currentTime` is at most the cursor
at that moment (chunks arrive faster than they play). -/
def fastArrival (s : PlaybackState) : List (ℚ × ℚ) → Bool
  | [] => true
  | c :: rest =>
      decide (c.1 ≤ s.nextStartTime) &&
        fastArrival (onmessage c.1 ⟨some c.2, false⟩ s) rest

/-! ## Remote AI client (`geminiService.ts`)

Each service function is embedded as a pure function of the remote
response(s) its `await`s consume.  A remote failure is an `Except.error`
input; a thrown exception is an `Except.error` result.  Every embedding
returns, alongside its result, the number of remote API calls the run
performs: each `generateContent` / `generateVideos` /
`getVideosOperation` / download `fetch` counts as one. -/

/-- The part of a `generateContent` response the text-based service
functions read: the `text` accessor.  `none` is an absent text;
JavaScript truthiness makes the empty string behave like an absent one. -/
structure GenContentResponse where
  text : Option String
deriving DecidableEq, Repr

/-- `try ... catch` where the handler swallows the failure and produces a
fallback value. -/
def tryCatchWith (body : Except String α) (handler : String → α) : α :=
  match body with
  | Except.ok a => a
  | Except.error e => handler e

/-- `lookupWordInGemini`: one `generateContent` call; if the response has
(truthy) text, parse it into a `WordDefinition`, else throw.  `parse`
stands for `JSON.parse` against the response schema (a platform
primitive). -/
def lookupWordInGemini (parse : String → WordDefinition)
    (response : GenContentResponse) : Except String WordDefinition × Nat :=
  (match response.text with
    | some s =>
        if s = "" then Except.error "Failed to generate definition"
        else Except.ok (parse s)
    | none => Except.error "Failed to generate definition", 1)

/-- The optional-chaining extraction
`candidates?.[0]?.content?.parts?.[0]?.inlineData?.data` of the TTS
response, every level optional. -/
structure InlineData where
  data : Option String
deriving DecidableEq, Repr

/-- One element of a response `parts` array. -/
structure RespPart where
  inlineData : Option InlineData
deriving DecidableEq, Repr

/-- A candidate's `content`, holding an optional `parts` array. -/
structure RespContent where
  parts : Option (List RespPart)
deriving DecidableEq, Repr

/-- One element of a response `candidates` array. -/
structure RespCandidate where
  content : Option RespContent
deriving DecidableEq, Repr

/-- A `generateContent` response as the audio-modality functions see it. -/
structure AudioResponse where
  candidates : Option (List RespCandidate)
deriving DecidableEq, Repr

/-- `response.candidates?.[0]?.content?.parts?.[0]?.inlineData?.data`. -/
def firstCandidateAudio (r : AudioResponse) : Option String :=
  ((((r.candidates.bind List.head?).bind
      RespCandidate.content).bind
      RespContent.parts).bind List.head?).bind
    (fun p => p.inlineData.bind InlineData.data)

/-- `generateTTS`: one `generateContent` call inside `try`; return the first
candidate's inline audio data `|| null` (so falsy data, the empty string,
also yields `null`); any error is caught and converted to `null`.  The
result's `Except` layer records that the function itself can still throw —
the theorem shows it never does. -/
def generateTTS (remote : Except String AudioResponse) :
    Except String (Option String) × Nat :=
  (Except.ok (tryCatchWith
      (remote.map (fun response =>
        match firstCandidateAudio response with
        | some d => if d = "" then none else some d
        | none => none))
      (fun _ => none)), 1)

/-- `generateWordImage`: one `generateContent` call inside `try`; scan
`candidates?.[0]?.content?.parts || []` for the first part with truthy
`inlineData` and wrap its data in a data URL via a template literal;
rethrow on error.  Each list element is that part's `inlineData` (outer
`Option`: is `inlineData` present) holding its `data` (inner `Option`: is
`data` present).  A part whose `inlineData` is present but whose `data` is
absent is still returned — the template literal renders the missing data
as the string "undefined". -/
def generateWordImage
    (remote : Except String (List (Option (Option String)))) :
    Except String (Option String) × Nat :=
  (remote.map (fun parts =>
      (parts.filterMap id).head?.map
        (fun d => "data:image/png;base64," ++ d.getD "undefined")), 1)

/-- `analyzeImageForVocabulary`: one `generateContent` call; parse the
response text into a label array when it has (truthy) text, else return the
empty array.  `parse` stands for `JSON.parse` against the array schema. -/
def analyzeImageForVocabulary (parse : String → List ImageLabel)
    (response : GenContentResponse) : List ImageLabel × Nat :=
  (match response.text with
    | some s => if s = "" then [] else parse s
    | none => [], 1)

/-- The slice of a video-generation operation object the code reads: its
`done` flag and `response?.generatedVideos?.[0]?.video?.uri`. -/
structure VideoOp where
  done : Bool
  uri : Option String
deriving DecidableEq, Repr

/-- The `while (!operation.done)` polling loop of `generateWordVideo`.
`remote n` is the operation object returned by the n-th remote call
(call 0 is `generateVideos`, later calls are `getVideosOperation`);
`cur` is the current operation, `count` the calls made so far, and `fuel`
bounds the loop — `none` means the loop did not finish within `fuel`
polls. -/
def pollVideoOperation (remote : Nat → VideoOp) :
    Nat → VideoOp → Nat → Option (VideoOp × Nat)
  | fuel, cur, count =>
    if cur.done then some (cur, count)
    else
      match fuel with
      | 0 => none
      | f + 1 => pollVideoOperation remote f (remote count) (count + 1)

/-- `generateWordVideo`: call `generateVideos`, poll until the operation is
done, then — when the download link is truthy (`if (!downloadLink) return
null`, so an absent link and the falsy empty string both stop here without
fetching) — `fetch` the link and hand back an object URL for the blob
(modelled as tagging the link).  The result carries the total number of
remote calls performed. -/
def generateWordVideo (remote : Nat → VideoOp) (fuel : Nat) :
    Option (Option String × Nat) :=
  match pollVideoOperation remote fuel (remote 0) 1 with
  | none => none
  | some (op, n) =>
      match op.uri with
      | some link =>
          if link = "" then some (none, n)
          else some (some ("blob-object-url-of:" ++ link), n + 1)
      | none => some (none, n)

/-! ## Local persistence (App component localStorage effects)

The save effect runs `localStorage.setItem(STORAGE_KEY,
JSON.stringify(savedWords))` after every list change; the load effect runs
`JSON.parse(localStorage.getItem(STORAGE_KEY))` on mount, keeping the
initial empty list when the key is absent or parsing fails.  The JSON text
layer is modelled at the level of the JSON value tree: `JSON.stringify`
on a `SavedWord` emits an object with the record's fields (omitting
`undefined` optional fields, as stringify does), and `JSON.parse` of
well-formed vocabulary JSON is the inverse reading. -/

/-- A JSON value (the fragment the word list uses). -/
inductive Json where
  | str : String → Json
  | num : Int → Json
  | arr : List Json → Json
  | obj : List (String × Json) → Json

/-- Look a field up in a JSON object's field list (first occurrence). -/
def Json.getField (fields : List (String × Json)) (k : String) : Option Json :=
  (fields.find? (fun p => p.1 = k)).map Prod.snd

/-- Read a JSON value as a string. -/
def Json.asStr : Json → Option String
  | Json.str s => some s
  | _ => none

/-- Read a JSON value as an integer. -/
def Json.asNum : Json → Option Int
  | Json.num n => some n
  | _ => none

/-- `JSON.stringify` of one saved word: its fields in declaration order,
with absent optional fields omitted. -/
def encodeSavedWord (w : SavedWord) : Json :=
  Json.obj
    ([("word", Json.str w.word),
      ("phonetic", Json.str w.phonetic),
      ("partOfSpeech", Json.str w.partOfSpeech),
      ("definitionEn", Json.str w.definitionEn),
      ("definitionCn", Json.str w.definitionCn),
      ("exampleSentence", Json.str w.exampleSentence),
      ("exampleTranslation", Json.str w.exampleTranslation),
      ("id", Json.str w.id),
      ("addedAt", Json.num w.addedAt)]
    ++ (match w.imageUrl with
        | some u => [("imageUrl", Json.str u)]
        | none => [])
    ++ (match w.videoUrl with
        | some u => [("videoUrl", Json.str u)]
        | none => []))

/-- `JSON.parse` reading of one saved word object. -/
def decodeSavedWord : Json → Option SavedWord
  | Json.obj fields => do
      let word ← (Json.getField fields "word").bind Json.asStr
      let phonetic ← (Json.getField fields "phonetic").bind Json.asStr
      let partOfSpeech ← (Json.getField fields "partOfSpeech").bind Json.asStr
      let definitionEn ← (Json.getField fields "definitionEn").bind Json.asStr
      let definitionCn ← (Json.getField fields "definitionCn").bind Json.asStr
      let exampleSentence ← (Json.getField fields "exampleSentence").bind Json.asStr
      let exampleTranslation ← (Json.getField fields "exampleTranslation").bind Json.asStr
      let wid ← (Json.getField fields "id").bind Json.asStr
      let addedAt ← (Json.getField fields "addedAt").bind Json.asNum
      let imageUrl ←
        match Json.getField fields "imageUrl" with
        | some j => (Json.asStr j).map some
        | none => some none
      let videoUrl ←
        match Json.getField fields "videoUrl" with
        | some j => (Json.asStr j).map some
        | none => some none
      pure
        { word := word, phonetic := phonetic, partOfSpeech := partOfSpeech,
          definitionEn := definitionEn, definitionCn := definitionCn,
          exampleSentence := exampleSentence,
          exampleTranslation := exampleTranslation,
          id := wid, addedAt := addedAt,
          imageUrl := imageUrl, videoUrl := videoUrl }
  | _ => none

/-- `JSON.stringify(savedWords)`: the whole list as one JSON array. -/
def stringifyWords (l : List SavedWord) : Json :=
  Json.arr (l.map encodeSavedWord)

/-- Decode each element of a JSON array in order, failing if any element
fails. -/
def decodeWordList : List Json → Option (List SavedWord)
  | [] => some []
  | j :: rest => do
      let w ← decodeSavedWord j
      let ws ← decodeWordList rest
      pure (w :: ws)

/-- `JSON.parse` reading of the stored vocabulary value. -/
def parseWords : Json → Option (List SavedWord)
  | Json.arr xs => decodeWordList xs
  | _ => none

/-- The single key under which the whole list is stored. -/
def STORAGE_KEY : String := "linguaflow_vocab_v1"

/-- The save effect: `localStorage.setItem(STORAGE_KEY,
JSON.stringify(savedWords))`, leaving every other key of the store
untouched.  The store is a key-to-value map. -/
def saveVocab (store : String → Option Json) (l : List SavedWord) :
    String → Option Json :=
  fun k => if k = STORAGE_KEY then some (stringifyWords l) else store k

/-- The load effect on mount: read `STORAGE_KEY`; keep the initial empty
list when the key is absent or `JSON.parse` fails (the catch branch). -/
def loadVocab (store : String → Option Json) : List SavedWord :=
  match store STORAGE_KEY with
  | none => []
  | some j =>
      match parseWords j with
      | some l => l
      | none => []

/-! ## Capture pipeline (`LivePractice` onopen) -/

/-- The buffer size configured on the script processor:
`inputCtx.createScriptProcessor(4096, 1, 1)`. -/
def scriptProcessorBufferSize : Nat := 4096

/-- Modelled from the spec: `createBlob` from `utils/audioUtils` is not
under `src/` (only its import and call sites are).  Per the spec it builds
one outbound audio frame from the captured sample buffer — a fixed-size
frame pumped to the remote endpoint — converting each captured sample; the
per-sample conversion `conv` is abstract. -/
def createBlob (conv : ℚ → Int) (samples : List ℚ) : List Int :=
  samples.map conv

/-- An `onaudioprocess` event: `inputBuffer.getChannelData(0)`. -/
structure AudioProcessEvent where
  inputData : List ℚ
deriving DecidableEq

/-- The `onaudioprocess` handler's outbound work: build the PCM frame from
the captured channel data and send it on the session
(`session.sendRealtimeInput(\x7b media: pcmBlob \x7d)`); the sent frame is
returned. -/
def onaudioprocess (conv : ℚ → Int) (e : AudioProcessEvent) : List Int :=
  createBlob conv e.inputData

/-! ## Concrete sample values used by the witness theorems -/

/-- A concrete looked-up definition. -/
def exWordDef : WordDefinition :=
  { word := "apple", phonetic := "ap", partOfSpeech := "noun",
    definitionEn := "a fruit", definitionCn := "cn", exampleSentence := "s",
    exampleTranslation := "t" }

/-- A concrete saved word. -/
def exSavedWord : SavedWord :=
  { word := "apple", phonetic := "ap", partOfSpeech := "noun",
    definitionEn := "a fruit", definitionCn := "cn", exampleSentence := "s",
    exampleTranslation := "t", id := "id-1", addedAt := 7,
    imageUrl := none, videoUrl := none }

/-- A concrete mid-session playback state: two sources pending, cursor at
5 seconds. -/
def exPlayback : PlaybackState :=
  { nextStartTime := 5, pending := {0, 1}, stopped := ∅, nextId := 2,
    scheduled := [(0, 2), (2, 3)] }

/-- A remote video trace whose first operation is still running and whose
first poll finds it done with a download link. -/
def exVideoRemote : Nat → VideoOp :=
  fun n => if n = 0 then ⟨false, none⟩ else ⟨true, some "vid"⟩

/-- A remote video trace whose operation is done at once with no link. -/
def exDoneRemote : Nat → VideoOp :=
  fun _ => ⟨true, none⟩

/-! ## Theorems -/

/-- C5: `handleSaveWord` prepends to the list exactly the given word
record's fields plus a fresh UUID and the current time, with image and
video references absent. -/
theorem handleSaveWord_prepends_record (uuid : String) (now : Int)
    (wordDef : WordDefinition) (prev : List SavedWord) :
    ∃ nw : SavedWord,
      handleSaveWord uuid now wordDef prev = nw :: prev ∧
      nw.word = wordDef.word ∧ nw.phonetic = wordDef.phonetic ∧
      nw.partOfSpeech = wordDef.partOfSpeech ∧
      nw.definitionEn = wordDef.definitionEn ∧
      nw.definitionCn = wordDef.definitionCn ∧
      nw.exampleSentence = wordDef.exampleSentence ∧
      nw.exampleTranslation = wordDef.exampleTranslation ∧
      nw.id = uuid ∧ nw.addedAt = now ∧
      nw.imageUrl = none ∧ nw.videoUrl = none :=
  ⟨_, rfl, rfl, rfl, rfl, rfl, rfl, rfl, rfl, rfl, rfl, rfl, rfl⟩

/-- C8: `handleUpdateWord` keeps the length and order of the list, merges
the update into exactly the positions whose id matches, and leaves the list
unchanged when no word has the id. -/
theorem handleUpdateWord_frame (wid : String) (u : SavedWordUpdate)
    (prev : List SavedWord) :
    (handleUpdateWord wid u prev).length = prev.length ∧
    (∀ i : Nat, (handleUpdateWord wid u prev)[i]? =
      (prev[i]?).map (fun w => if w.id = wid then mergeWord w u else w)) ∧
    ((∀ w ∈ prev, w.id ≠ wid) → handleUpdateWord wid u prev = prev) := by
  refine ⟨List.length_map _ _, fun i => ?_, fun h => ?_⟩
  · simp [handleUpdateWord]
  · calc prev.map (fun w => if w.id = wid then mergeWord w u else w)
        = prev.map id := List.map_congr_left (fun w hw => if_neg (h w hw))
      _ = prev := List.map_id prev

/-- Witness for C8: updating a missing id leaves a concrete list
unchanged. -/
theorem handleUpdateWord_frame_witness :
    handleUpdateWord "id-2" {} [exSavedWord] = [exSavedWord] :=
  (handleUpdateWord_frame "id-2" {} [exSavedWord]).2.2 (by decide)

/-- C9: on a non-empty deck, flashcard navigation keeps the index in
bounds after any sequence of next/prev steps, and stepping next then prev
returns to the original index. -/
theorem flashcard_nav_in_bounds (len i : Nat) (steps : List NavStep)
    (hlen : 0 < len) (hi : i < len) :
    applyNavSteps len i steps < len ∧
    handlePrev len (handleNext len i) = i := by
  have hb : ∀ (st : List NavStep) (j : Nat), j < len →
      applyNavSteps len j st < len := by
    intro st
    induction st with
    | nil => intro j hj; simpa [applyNavSteps] using hj
    | cons a rest ih =>
        intro j hj
        have hstep : applyNavStep len j a < len := by
          cases a <;>
            simp only [applyNavStep, handleNext, handlePrev] <;>
            exact Nat.mod_lt _ hlen
        exact ih _ hstep
  have hr : handlePrev len (handleNext len i) = i := by
    unfold handleNext handlePrev
    rcases Nat.lt_or_ge (i + 1) len with h | h
    · rw [Nat.mod_eq_of_lt h]
      have h2 : i + 1 + len - 1 = i + len := by omega
      rw [h2, Nat.add_mod_right, Nat.mod_eq_of_lt hi]
    · have h3 : i + 1 = len := by omega
      rw [h3, Nat.mod_self]
      have h4 : 0 + len - 1 = len - 1 := by omega
      rw [h4, Nat.mod_eq_of_lt (by omega)]
      omega
  exact ⟨hb steps i hi, hr⟩

/-- Witness for C9: a concrete three-step walk on a three-card deck. -/
theorem flashcard_nav_in_bounds_witness :
    applyNavSteps 3 1 [NavStep.next, NavStep.next, NavStep.prev] < 3 ∧
    handlePrev 3 (handleNext 3 1) = 1 :=
  flashcard_nav_in_bounds 3 1 [NavStep.next, NavStep.next, NavStep.prev]
    (by decide) (by decide)

/-- C4: `lookupWordInGemini` returns the word record parsed from the
response text when the response has (truthy) text, and throws
"Failed to generate definition" when it has none. -/
theorem lookupWord_parse_or_throw (parse : String → WordDefinition)
    (response : GenContentResponse) :
    (∀ s : String, response.text = some s → s ≠ "" →
      (lookupWordInGemini parse response).1 = Except.ok (parse s)) ∧
    (response.text = none →
      (lookupWordInGemini parse response).1 =
        Except.error "Failed to generate definition") := by
  constructor
  · intro s hs hne
    simp [lookupWordInGemini, hs, hne]
  · intro h
    simp [lookupWordInGemini, h]

/-- Witness for C4: a concrete response with text parses, a concrete
response without text throws. -/
theorem lookupWord_parse_or_throw_witness :
    (lookupWordInGemini (fun _ => exWordDef) ⟨some "x"⟩).1 =
      Except.ok exWordDef ∧
    (lookupWordInGemini (fun _ => exWordDef) ⟨none⟩).1 =
      Except.error "Failed to generate definition" :=
  ⟨(lookupWord_parse_or_throw (fun _ => exWordDef) ⟨some "x"⟩).1 "x" rfl
      (by decide),
    (lookupWord_parse_or_throw (fun _ => exWordDef) ⟨none⟩).2 rfl⟩

/-- C10: `generateTTS` never throws: its result is always `ok`, holding
either the first candidate's inline audio data or `null`; a remote error is
caught and becomes `null`. -/
theorem generateTTS_never_throws (remote : Except String AudioResponse) :
    (∃ o : Option String, (generateTTS remote).1 = Except.ok o ∧
      (o = none ∨ ∃ resp, remote = Except.ok resp ∧
        firstCandidateAudio resp = o)) ∧
    (∀ e, remote = Except.error e → (generateTTS remote).1 = Except.ok none) := by
  cases remote with
  | error e =>
      exact ⟨⟨none, rfl, Or.inl rfl⟩, fun _ _ => rfl⟩
  | ok resp =>
      refine ⟨?_, fun e h => Except.noConfusion h⟩
      cases hfc : firstCandidateAudio resp with
      | none =>
          exact ⟨none, by simp [generateTTS, tryCatchWith, Except.map, hfc], Or.inl rfl⟩
      | some d =>
          by_cases hd : d = ""
          · exact ⟨none, by simp [generateTTS, tryCatchWith, Except.map, hfc, hd], Or.inl rfl⟩
          · exact ⟨some d, by simp [generateTTS, tryCatchWith, Except.map, hfc, hd],
              Or.inr ⟨resp, rfl, hfc⟩⟩

/-- Witness for C10: a concrete failing remote call yields `null`. -/
theorem generateTTS_never_throws_witness :
    (generateTTS (Except.error "boom")).1 = Except.ok none :=
  (generateTTS_never_throws (Except.error "boom")).2 "boom" rfl

/-- C7: every outbound frame the capture pipeline sends is built from the
full capture buffer, whose configured size is 4096 samples, so the frame
carries exactly 4096 samples. -/
theorem capture_frame_size (conv : ℚ → Int) (e : AudioProcessEvent)
    (h : e.inputData.length = scriptProcessorBufferSize) :
    (onaudioprocess conv e).length = 4096 := by
  simpa [onaudioprocess, createBlob, scriptProcessorBufferSize] using h

/-- Witness for C7: a concrete full capture buffer yields a 4096-sample
frame. -/
theorem capture_frame_size_witness :
    (onaudioprocess (fun _ => 0) ⟨List.replicate 4096 (0 : ℚ)⟩).length = 4096 :=
  capture_frame_size (fun _ => 0) ⟨List.replicate 4096 (0 : ℚ)⟩
    (by rw [List.length_replicate]; rfl)

/-- C1: when a server message carries the interrupted signal, the handler
stops every source still in the pending set, empties the set, and resets
the cursor to 0. -/
theorem interruption_clears_pending (ctxTime : ℚ) (m : LiveMsg)
    (s : PlaybackState) (h : m.interrupted = true) :
    (onmessage ctxTime m s).pending = ∅ ∧
    (onmessage ctxTime m s).nextStartTime = 0 ∧
    ∀ sid ∈ s.pending, sid ∈ (onmessage ctxTime m s).stopped := by
  unfold onmessage
  cases hd : m.audioDuration with
  | none =>
      refine ⟨by simp [h, interruptStep], by simp [h, interruptStep], ?_⟩
      intro sid hsid
      simp only [h, if_true, interruptStep]
      exact Finset.mem_union_right _ hsid
  | some d =>
      refine ⟨by simp [h, interruptStep], by simp [h, interruptStep], ?_⟩
      intro sid hsid
      simp only [h, if_true, interruptStep, audioStep]
      exact Finset.mem_union_right _ (Finset.mem_insert_of_mem hsid)

/-- Witness for C1: a concrete interrupting message (which also carries
audio) empties a concrete pending set, zeroes the cursor, and stops a
previously pending source. -/
theorem interruption_clears_pending_witness :
    (onmessage 2 ⟨some 1, true⟩ exPlayback).pending = ∅ ∧
    (onmessage 2 ⟨some 1, true⟩ exPlayback).nextStartTime = 0 ∧
    (0 : Nat) ∈ (onmessage 2 ⟨some 1, true⟩ exPlayback).stopped := by
  obtain ⟨h1, h2, h3⟩ :=
    interruption_clears_pending 2 ⟨some 1, true⟩ exPlayback rfl
  exact ⟨h1, h2, h3 0 (by decide)⟩

/-- C3 counterexample: on a remote trace whose operation is not done on the
first response and completes with a download link on the first poll,
`generateWordVideo` performs three remote calls (generation, one poll, the
download fetch), not one. -/
theorem generateWordVideo_multiple_calls :
    generateWordVideo exVideoRemote 5 =
      some (some "blob-object-url-of:vid", 3) ∧ (3 : Nat) ≠ 1 :=
  ⟨rfl, by decide⟩

/-- The polling loop makes at least one further remote call whenever the
operation it starts from is not done, and makes none when it is. -/
theorem pollVideoOperation_count (remote : Nat → VideoOp) :
    ∀ (fuel : Nat) (cur : VideoOp) (count : Nat) (op : VideoOp) (m : Nat),
      pollVideoOperation remote fuel cur count = some (op, m) →
      count ≤ m ∧ (cur.done = false → count + 1 ≤ m) ∧
        (cur.done = true → op = cur ∧ m = count) := by
  intro fuel
  induction fuel with
  | zero =>
      intro cur count op m h
      by_cases hd : cur.done
      · rw [pollVideoOperation, if_pos hd] at h
        simp only [Option.some.injEq, Prod.mk.injEq] at h
        obtain ⟨rfl, rfl⟩ := h
        exact ⟨Nat.le_refl _, fun hf => absurd hd (by simp [hf]),
          fun _ => ⟨rfl, rfl⟩⟩
      · rw [pollVideoOperation, if_neg hd] at h
        cases h
  | succ f ih =>
      intro cur count op m h
      by_cases hd : cur.done
      · rw [pollVideoOperation, if_pos hd] at h
        simp only [Option.some.injEq, Prod.mk.injEq] at h
        obtain ⟨rfl, rfl⟩ := h
        exact ⟨Nat.le_refl _, fun hf => absurd hd (by simp [hf]),
          fun _ => ⟨rfl, rfl⟩⟩
      · rw [pollVideoOperation, if_neg hd] at h
        obtain ⟨h1, _, _⟩ := ih (remote count) (count + 1) op m h
        refine ⟨Nat.le_of_succ_le h1, fun _ => h1, fun ht => absurd ht hd⟩

/-- Call-count characterization of a completed `generateWordVideo` run:
at least one call always; at least two calls whenever the first response
is not yet done, and also whenever a link was fetched (the result is
non-null exactly when the fetch happened); and exactly one call precisely
when the operation is done at once and nothing is fetched. -/
theorem generateWordVideo_calls (remote : Nat → VideoOp) (fuel : Nat)
    (res : Option String) (n : Nat)
    (h : generateWordVideo remote fuel = some (res, n)) :
    1 ≤ n ∧ ((remote 0).done = false → 2 ≤ n) ∧
      (res ≠ none → 2 ≤ n) ∧
      (n = 1 ↔ ((remote 0).done = true ∧ res = none)) := by
  cases hpoll : pollVideoOperation remote fuel (remote 0) 1 with
  | none =>
      simp only [generateWordVideo, hpoll] at h
      cases h
  | some pr =>
      obtain ⟨op, m⟩ := pr
      simp only [generateWordVideo, hpoll] at h
      obtain ⟨h1, h2, h3⟩ := pollVideoOperation_count remote fuel
        (remote 0) 1 op m hpoll
      have hdone1 : m = 1 → (remote 0).done = true := by
        intro hm
        cases hD : (remote 0).done with
        | true => rfl
        | false => have := h2 hD; omega
      cases huri : op.uri with
      | some link =>
          rw [huri] at h
          change (if link = "" then some ((none : Option String), m)
            else some (some ("blob-object-url-of:" ++ link), m + 1)) =
              some (res, n) at h
          by_cases hlink : link = ""
          · rw [if_pos hlink] at h
            simp only [Option.some.injEq, Prod.mk.injEq] at h
            obtain ⟨rfl, rfl⟩ := h
            refine ⟨h1, h2, fun hr => absurd rfl hr, ?_⟩
            exact ⟨fun hn => ⟨hdone1 hn, rfl⟩, fun hc => (h3 hc.1).2⟩
          · rw [if_neg hlink] at h
            simp only [Option.some.injEq, Prod.mk.injEq] at h
            obtain ⟨rfl, rfl⟩ := h
            refine ⟨Nat.le_succ_of_le h1, fun hf => Nat.le_succ_of_le (h2 hf),
              fun _ => by omega, ?_⟩
            constructor
            · intro hn; omega
            · rintro ⟨-, hres⟩
              cases hres
      | none =>
          rw [huri] at h
          simp only [Option.some.injEq, Prod.mk.injEq] at h
          obtain ⟨rfl, rfl⟩ := h
          refine ⟨h1, h2, fun hr => absurd rfl hr, ?_⟩
          exact ⟨fun hn => ⟨hdone1 hn, rfl⟩, fun hc => (h3 hc.1).2⟩

/-- C3 (amended): the four request/response operations — definition
lookup, speech synthesis, image analysis, image generation — each perform
exactly one remote API call per use; video generation performs one
generation call, one polling call per not-yet-done check, and one download
fetch when a truthy link is returned (its non-null result witnesses the
fetch), so a completed run makes at least two calls whenever the operation
is not done at once or a link is fetched, and makes exactly one call
precisely when the operation is done at once and nothing is fetched. -/
theorem remote_client_call_counts
    (parse : String → WordDefinition) (parseLabels : String → List ImageLabel)
    (response : GenContentResponse) (labelResponse : GenContentResponse)
    (audioRemote : Except String AudioResponse)
    (imageRemote : Except String (List (Option (Option String))))
    (videoRemote : Nat → VideoOp) (fuel : Nat) (res : Option String) (n : Nat) :
    (lookupWordInGemini parse response).2 = 1 ∧
    (generateTTS audioRemote).2 = 1 ∧
    (generateWordImage imageRemote).2 = 1 ∧
    (analyzeImageForVocabulary parseLabels labelResponse).2 = 1 ∧
    (generateWordVideo videoRemote fuel = some (res, n) →
      1 ≤ n ∧
      ((videoRemote 0).done = false → 2 ≤ n) ∧
      (res ≠ none → 2 ≤ n) ∧
      (n = 1 ↔ ((videoRemote 0).done = true ∧ res = none))) :=
  ⟨rfl, rfl, rfl, rfl, generateWordVideo_calls videoRemote fuel res n⟩

/-- Witness for C3 (amended): a remote trace done at once with no link
completes in exactly one call, and the characterization holds there. -/
theorem remote_client_call_counts_witness :
    1 ≤ 1 ∧ ((exDoneRemote 0).done = false → 2 ≤ 1) ∧
      ((none : Option String) ≠ none → 2 ≤ 1) ∧
      (1 = 1 ↔ ((exDoneRemote 0).done = true ∧ (none : Option String) = none)) :=
  (remote_client_call_counts (fun _ => exWordDef) (fun _ => []) ⟨none⟩ ⟨none⟩
    (Except.error "e") (Except.error "e") exDoneRemote 0 none 1).2.2.2.2 rfl

/-- An audio-only message is exactly the audio branch. -/
theorem onmessage_audio (ctxTime d : ℚ) (s : PlaybackState) :
    onmessage ctxTime ⟨some d, false⟩ s = audioStep ctxTime d s := by
  simp [onmessage]

/-- Scheduled starts never overlap the previous chunk: each source starts
no earlier than the previous source's end. -/
theorem runChunks_no_overlap :
    ∀ (chunks : List (ℚ × ℚ)) (s : PlaybackState),
      List.Chain' (fun a b : ℚ × ℚ => a.1 + a.2 ≤ b.1) s.scheduled →
      (∀ e ∈ s.scheduled.getLast?, e.1 + e.2 ≤ s.nextStartTime) →
      List.Chain' (fun a b : ℚ × ℚ => a.1 + a.2 ≤ b.1)
        (runChunks s chunks).scheduled := by
  intro chunks
  induction chunks with
  | nil => intro s hc _; simpa [runChunks] using hc
  | cons c rest ih =>
      intro s hc hl
      rw [runChunks, onmessage_audio]
      apply ih
      · rw [audioStep]
        refine List.chain'_append.2 ⟨hc, List.chain'_singleton _, ?_⟩
        intro x hx y hy
        rw [List.head?_cons, Option.mem_some_iff] at hy
        subst hy
        exact le_trans (hl x hx) (le_max_left _ _)
      · intro e he
        rw [audioStep] at he
        simp only [List.getLast?_concat, Option.mem_some_iff] at he
        subst he
        exact le_refl _

/-- Scheduled starts are nondecreasing, provided chunk durations are
nonnegative. -/
theorem runChunks_monotone :
    ∀ (chunks : List (ℚ × ℚ)) (s : PlaybackState),
      (∀ c ∈ chunks, 0 ≤ c.2) →
      List.Chain' (fun a b : ℚ × ℚ => a.1 ≤ b.1) s.scheduled →
      (∀ e ∈ s.scheduled.getLast?, e.1 ≤ s.nextStartTime) →
      List.Chain' (fun a b : ℚ × ℚ => a.1 ≤ b.1)
        (runChunks s chunks).scheduled := by
  intro chunks
  induction chunks with
  | nil => intro s _ hc _; simpa [runChunks] using hc
  | cons c rest ih =>
      intro s hd hc hl
      rw [runChunks, onmessage_audio]
      apply ih
      · exact fun x hx => hd x (List.mem_cons_of_mem _ hx)
      · rw [audioStep]
        refine List.chain'_append.2 ⟨hc, List.chain'_singleton _, ?_⟩
        intro x hx y hy
        rw [List.head?_cons, Option.mem_some_iff] at hy
        subst hy
        exact le_trans (hl x hx) (le_max_left _ _)
      · intro e he
        rw [audioStep] at he
        simp only [List.getLast?_concat, Option.mem_some_iff] at he
        subst he
        have h2 : (0 : ℚ) ≤ c.2 := hd c (List.mem_cons_self _ _)
        show s.nextStartTime ⊔ c.1 ≤ (s.nextStartTime ⊔ c.1) + c.2
        exact le_add_of_nonneg_right h2

/-- When every chunk arrives while the queue is still ahead of real time,
each source starts exactly where the previous one ends: gapless,
back-to-back playback. -/
theorem runChunks_gapless :
    ∀ (chunks : List (ℚ × ℚ)) (s : PlaybackState),
      fastArrival s chunks = true →
      List.Chain' (fun a b : ℚ × ℚ => b.1 = a.1 + a.2) s.scheduled →
      (∀ e ∈ s.scheduled.getLast?, e.1 + e.2 = s.nextStartTime) →
      List.Chain' (fun a b : ℚ × ℚ => b.1 = a.1 + a.2)
        (runChunks s chunks).scheduled := by
  intro chunks
  induction chunks with
  | nil => intro s _ hc _; simpa [runChunks] using hc
  | cons c rest ih =>
      intro s hf hc hl
      rw [fastArrival, Bool.and_eq_true, decide_eq_true_eq] at hf
      obtain ⟨hle, hf2⟩ := hf
      have hmax : max s.nextStartTime c.1 = s.nextStartTime :=
        max_eq_left hle
      rw [onmessage_audio] at hf2
      rw [runChunks, onmessage_audio]
      apply ih _ hf2
      · rw [audioStep]
        refine List.chain'_append.2 ⟨hc, List.chain'_singleton _, ?_⟩
        intro x hx y hy
        rw [List.head?_cons, Option.mem_some_iff] at hy
        subst hy
        show max s.nextStartTime c.1 = x.1 + x.2
        rw [hmax, hl x hx]
      · intro e he
        rw [audioStep] at he
        simp only [List.getLast?_concat, Option.mem_some_iff] at he
        subst he
        rfl

/-- C2: each inbound audio chunk is scheduled at
`max(nextStartTime, ctx.currentTime)` and the cursor then advances by
exactly the chunk's duration; hence over any interruption-free sequence of
chunks with nonnegative durations the scheduled starts are nondecreasing
and never overlap the previous chunk, and when every chunk arrives faster
than playback each chunk starts exactly where the previous one ends. -/
theorem audio_scheduling_gapless (t0 : ℚ) (chunks : List (ℚ × ℚ))
    (hd : ∀ c ∈ chunks, 0 ≤ c.2) :
    (∀ (ctxTime d : ℚ) (s : PlaybackState),
      (onmessage ctxTime ⟨some d, false⟩ s).scheduled =
        s.scheduled ++ [(max s.nextStartTime ctxTime, d)] ∧
      (onmessage ctxTime ⟨some d, false⟩ s).nextStartTime =
        max s.nextStartTime ctxTime + d) ∧
    List.Chain' (fun a b : ℚ × ℚ => a.1 ≤ b.1)
      (runChunks (initPlayback t0) chunks).scheduled ∧
    List.Chain' (fun a b : ℚ × ℚ => a.1 + a.2 ≤ b.1)
      (runChunks (initPlayback t0) chunks).scheduled ∧
    (fastArrival (initPlayback t0) chunks = true →
      List.Chain' (fun a b : ℚ × ℚ => b.1 = a.1 + a.2)
        (runChunks (initPlayback t0) chunks).scheduled) := by
  refine ⟨fun ctxTime d s => ⟨by rw [onmessage_audio]; rfl,
    by rw [onmessage_audio]; rfl⟩, ?_, ?_, fun hf => ?_⟩
  · exact runChunks_monotone chunks (initPlayback t0) hd
      (by simp [initPlayback]) (by simp [initPlayback])
  · exact runChunks_no_overlap chunks (initPlayback t0)
      (by simp [initPlayback]) (by simp [initPlayback])
  · exact runChunks_gapless chunks (initPlayback t0) hf
      (by simp [initPlayback]) (by simp [initPlayback])

/-- Witness for C2: a concrete fast-arriving chunk sequence is scheduled
gaplessly. -/
theorem audio_scheduling_gapless_witness :
    List.Chain' (fun a b : ℚ × ℚ => b.1 = a.1 + a.2)
      (runChunks (initPlayback 0) [(0, 2), (1, 3)]).scheduled :=
  (audio_scheduling_gapless 0 [(0, 2), (1, 3)] (by decide)).2.2.2
    (by norm_num [fastArrival, onmessage, audioStep, initPlayback])

/-- Reading back the stringified form of one saved word recovers it. -/
theorem decode_encode_savedWord (w : SavedWord) :
    decodeSavedWord (encodeSavedWord w) = some w := by
  obtain ⟨wd, ph, ps, de, dc, es, et, wid, aa, iu, vu⟩ := w
  cases iu <;> cases vu <;>
    simp [encodeSavedWord, decodeSavedWord, Json.getField, Json.asStr,
      Json.asNum, List.find?]

/-- Reading back the stringified form of a word list recovers the list. -/
theorem decode_encode_list (l : List SavedWord) :
    decodeWordList (l.map encodeSavedWord) = some l := by
  induction l with
  | nil => rfl
  | cons w rest ih =>
      simp [decodeWordList, decode_encode_savedWord, ih]

/-- C6: the whole word list is saved under the single storage key, leaving
every other key untouched, and loading a save yields the same list (the
JSON round-trip is the identity). -/
theorem vocab_persistence_roundtrip (store : String → Option Json)
    (l : List SavedWord) :
    loadVocab (saveVocab store l) = l ∧
    ∀ k, k ≠ STORAGE_KEY → saveVocab store l k = store k := by
  constructor
  · simp [loadVocab, saveVocab, parseWords, stringifyWords,
      decode_encode_list l]
  · intro k hk
    simp [saveVocab, hk]

/-- Witness for C6: a save touches no other concrete key. -/
theorem vocab_persistence_roundtrip_witness :
    saveVocab (fun _ => none) [exSavedWord] "other_key" = none :=
  (vocab_persistence_roundtrip (fun _ => none) [exSavedWord]).2
    "other_key" (by decide)
